import Mathlib

/-!
Verification of the `camera_scout` device-discovery pipeline
(`src/camera_scout/detector.py`) against its natural-language specification.

The Python code is shallowly embedded: each method of `CameraResearcher`
becomes a pure Lean function over explicit inputs.  Subprocess invocations
are modelled as `Option` inputs (`none` = the invocation raised one of the
caught exceptions).  Uncaught Python exceptions (`KeyError`, `IndexError`,
`ValueError`, `AttributeError`) are modelled with `Except PyError`.
Character classes of the Python regexes (`\d`, `\s`, `\w`) and of
`str.strip`/`str.lower` are modelled over their ASCII behaviour, which is
what the v4l2 text the program consumes contains.
-/

namespace CameraScout

/-! ### String helpers (embedding Python `str` primitives on `List Char`) -/

/-- Python `str.rstrip()`: drop trailing whitespace. -/
def rstripL (cs : List Char) : List Char :=
  (cs.reverse.dropWhile Char.isWhitespace).reverse

/-- Python `str.strip()`: drop leading and trailing whitespace. -/
def stripL (cs : List Char) : List Char :=
  rstripL (cs.dropWhile Char.isWhitespace)

/-- Python `needle in hay` substring test. -/
def containsSub (hay needle : List Char) : Bool :=
  needle.isPrefixOf hay ||
    match hay with
    | [] => false
    | _ :: t => containsSub t needle

/-- Python `str.lower()` (ASCII). -/
def lowerL (cs : List Char) : List Char := cs.map Char.toLower

/-- Python `int` on a digit string (the regexes only capture digit runs). -/
def natOfDigits (cs : List Char) : Nat :=
  cs.foldl (fun n c => 10 * n + (c.toNat - 48)) 0

/-! ### Data model -/

/-- One entry of a device's format listing: the Python dict
`{"format": ..., "width": ..., "height": ..., "fps": ...}` built in
`_get_camera_specs`.  `fps` is kept as the text captured by the regex
group `(\d+\.\d+)`; Python's `float` on that shape never fails and the
program never computes with the value. -/
structure CamSpec where
  format : String
  width : Nat
  height : Nat
  fps : String
  deriving Repr, DecidableEq

/-- The per-device dict built in `_parse_detailed_info`.
`type`: `some s` models the Python string `s`, `none` models Python `None`
(what `_find_type` returns when nothing matches).  `camId = none` models
the initial `[]` of the `"_id"` field, `camParam = none` the initial `{}`
of `"cam_param"`. -/
structure DeviceRecord where
  name : String
  type : Option String
  paths : List String
  camId : Option Nat
  camParam : Option CamSpec
  deriving Repr, DecidableEq

/-- Uncaught Python exceptions that can escape the pipeline. -/
inductive PyError where
  | keyError
  | indexError
  | valueError
  | attrError
  deriving Repr, DecidableEq

/-! ### Device List Parser (`_parse_detailed_info`) -/

/-- The line is skipped by `if not line: continue` (after `rstrip`). -/
def isBlankLine (l : String) : Bool :=
  (rstripL l.toList).isEmpty

/-- The header test of `_parse_detailed_info`:
`not line.startswith((" ", "\t")) and ":/dev/" not in line`,
on the rstripped, non-blank line. -/
def isHeaderLine (l : String) : Bool :=
  !(rstripL l.toList).isEmpty &&
    !([' '].isPrefixOf (rstripL l.toList) ||
      ['\t'].isPrefixOf (rstripL l.toList)) &&
    !(containsSub (rstripL l.toList) ":/dev/".toList)

/-- The path test: `line.strip().startswith("/dev/video")`, reached only
for non-blank non-header lines. -/
def isPathLine (l : String) : Bool :=
  !(isBlankLine l) && !(isHeaderLine l) &&
    "/dev/video".toList.isPrefixOf (stripL l.toList)

/-- `line.replace(":", "").strip()` applied to the rstripped header line. -/
def headerName (l : String) : String :=
  String.mk (stripL ((rstripL l.toList).filter (fun c => c != ':')))

/-- `line.strip()` for a path line. -/
def pathString (l : String) : String :=
  String.mk (stripL l.toList)

/-- The fresh dict opened for a header line. -/
def freshDevice (l : String) : DeviceRecord :=
  { name := headerName l, type := some "", paths := [], camId := none,
    camParam := none }

/-- The loop of `_parse_detailed_info`.  `none` as result models the
`KeyError` raised by `current_device["paths"]` when a path line arrives
before any header opened a block. -/
def parseLoop : List String → List DeviceRecord → Option DeviceRecord →
    Option (List DeviceRecord)
  | [], devs, cur => some (devs ++ cur.toList)
  | l :: ls, devs, cur =>
    if isBlankLine l then parseLoop ls devs cur
    else if isHeaderLine l then
      parseLoop ls (devs ++ cur.toList) (some (freshDevice l))
    else if isPathLine l then
      match cur with
      | none => none
      | some d =>
        parseLoop ls devs (some { d with paths := d.paths ++ [pathString l] })
    else parseLoop ls devs cur

/-- `_parse_detailed_info`, over the `splitlines()` of the utility output. -/
def parseDetailedInfo (lines : List String) : Option (List DeviceRecord) :=
  parseLoop lines [] none

/-! ### Type Classifier (`_find_type`, `_get_cam_type`) -/

/-- One fragment test: `name.lower() in cam_name.lower()`. -/
def fragMatches (camName frag : String) : Bool :=
  containsSub (lowerL camName.toList) (lowerL frag.toList)

/-- `_find_type`.  The trailing `assert "Not find cam type, check .json"`
is a no-op on a non-empty string literal, so on no match the Python
function falls through and returns `None`, modelled by `none`. -/
def findType (camName : String) (fccData : List (String × List String)) :
    Option String :=
  match fccData with
  | [] => none
  | (camType, names) :: rest =>
    if names.any (fun n => fragMatches camName n) then some camType
    else findType camName rest

/-- `_get_cam_type`: overwrite every record's `type` with the classifier
result. -/
def getCamType (config : List (String × List String))
    (devices : List DeviceRecord) : List DeviceRecord :=
  devices.map (fun d => { d with type := findType d.name config })

/-! ### Format List Parser & Selector (`_get_camera_specs`) -/

/-- Python regex `\w` (ASCII). -/
def isWordChar (c : Char) : Bool := c.isAlphanum || c == '_'

/-- `re.match(r"\s*\[\d+\]:\s+\'(\w+)\'.*", line)`: the declared format
tag, or `none` when the line is not a format-tag line.  Each quantifier
is deterministic because the character classes on both sides of it are
disjoint. -/
def matchFormatLine (l : String) : Option String :=
  match l.toList.dropWhile Char.isWhitespace with
  | '[' :: r1 =>
    let ds := r1.takeWhile Char.isDigit
    if ds.isEmpty then none else
    match r1.dropWhile Char.isDigit with
    | ']' :: ':' :: r2 =>
      let ws := r2.takeWhile Char.isWhitespace
      if ws.isEmpty then none else
      match r2.dropWhile Char.isWhitespace with
      | '\'' :: r3 =>
        let w := r3.takeWhile isWordChar
        if w.isEmpty then none else
        match r3.dropWhile isWordChar with
        | '\'' :: _ => some (String.mk w)
        | _ => none
      | _ => none
    | _ => none
  | _ => none

/-- `re.match(r"\s*Size:\s+Discrete\s+(\d+)x(\d+)", line)`, returning the
two captured numbers through `int`. -/
def matchSizeLine (l : String) : Option (Nat × Nat) :=
  let r0 := l.toList.dropWhile Char.isWhitespace
  if "Size:".toList.isPrefixOf r0 then
    let r1 := r0.drop 5
    let ws1 := r1.takeWhile Char.isWhitespace
    if ws1.isEmpty then none else
    let r2 := r1.dropWhile Char.isWhitespace
    if "Discrete".toList.isPrefixOf r2 then
      let r3 := r2.drop 8
      let ws2 := r3.takeWhile Char.isWhitespace
      if ws2.isEmpty then none else
      let r4 := r3.dropWhile Char.isWhitespace
      let w := r4.takeWhile Char.isDigit
      if w.isEmpty then none else
      match r4.dropWhile Char.isDigit with
      | 'x' :: r5 =>
        let h := r5.takeWhile Char.isDigit
        if h.isEmpty then none else some (natOfDigits w, natOfDigits h)
      | _ => none
    else none
  else none

/-- Try the pattern `\((\d+\.\d+)\s+fps\)` anchored at the head of `cs`,
returning the captured `\d+\.\d+` text. -/
def tryFpsAt (cs : List Char) : Option String :=
  match cs with
  | '(' :: rest =>
    if (rest.takeWhile Char.isDigit).isEmpty then none else
    match rest.dropWhile Char.isDigit with
    | '.' :: r2 =>
      if (r2.takeWhile Char.isDigit).isEmpty then none else
      if ((r2.dropWhile Char.isDigit).takeWhile Char.isWhitespace).isEmpty
        then none else
      match (r2.dropWhile Char.isDigit).dropWhile Char.isWhitespace with
      | 'f' :: 'p' :: 's' :: ')' :: _ =>
        some (String.mk (rest.takeWhile Char.isDigit ++
          '.' :: r2.takeWhile Char.isDigit))
      | _ => none
    | _ => none
  | _ => none

/-- `re.search(r"\((\d+\.\d+)\s+fps\)", line)`: first match anywhere in
the line. -/
def fpsSearch : List Char → Option String
  | [] => none
  | c :: rest =>
    match tryFpsAt (c :: rest) with
    | some g => some g
    | none => fpsSearch rest

/-- The scanning loop of `_get_camera_specs` over the probe output lines,
carrying `current_format` and `current_res`.  A line under a format other
than `cam_codec` (or before any format line: `None not in {cam_codec}`)
is skipped with the state kept. -/
def specsLoop (camCodec : String) :
    List String → Option String → Option (Nat × Nat) → List CamSpec
  | [], _, _ => []
  | line :: rest, curFmt, curRes =>
    match matchFormatLine line with
    | some f => specsLoop camCodec rest (some f) none
    | none =>
      match curFmt with
      | none => specsLoop camCodec rest none curRes
      | some f =>
        if f == camCodec then
          match matchSizeLine line with
          | some wh => specsLoop camCodec rest (some f) (some wh)
          | none =>
            match curRes with
            | some (w, h) =>
              match fpsSearch line.toList with
              | some fps =>
                { format := f, width := w, height := h, fps := fps } ::
                  specsLoop camCodec rest (some f) (some (w, h))
              | none => specsLoop camCodec rest (some f) (some (w, h))
            | none => specsLoop camCodec rest (some f) none
        else specsLoop camCodec rest (some f) curRes

/-- `_get_camera_specs`: `probeOutput = none` models the probe invocation
raising one of the caught exceptions (`CalledProcessError`,
`FileNotFoundError`, `ValueError`), which the `except` turns into `[]`. -/
def getCameraSpecs (probeOutput : Option (List String)) (camCodec : String) :
    List CamSpec :=
  match probeOutput with
  | none => []
  | some lines => specsLoop camCodec lines none none

/-! ### Best-parameter step (`_get_best_cam_param`) -/

/-- Ordered association-list lookup, modelling Python dict indexing
(`none` = the dict raises `KeyError`). -/
def alookup {α : Type} : List (String × α) → String → Option α
  | [], _ => none
  | p :: rest, t => if p.1 == t then some p.2 else alookup rest t

/-- Association-list overwrite, modelling Python dict item assignment. -/
def aupdate {α : Type} : List (String × α) → String → α → List (String × α)
  | [], _, _ => []
  | p :: rest, t, v => (if p.1 == t then (p.1, v) else p) :: aupdate rest t v

/-- `self.__codec_preferences = {"cam": "MJPG", "termal": "YUYV"}`. -/
def codecPreferences : List (String × String) :=
  [("cam", "MJPG"), ("termal", "YUYV")]

/-- The body of `_get_best_cam_param` for one device.  `probe path` is the
output of `v4l2-ctl -d path --list-formats-ext` (`none` = invocation
failure, turned into `[]` inside `_get_camera_specs`). -/
def getBestCamParamDev (prefs : List (String × String))
    (probe : String → Option (List String)) (dev : DeviceRecord) :
    Except PyError DeviceRecord :=
  if dev.type == some "realsense" || dev.type == some "" then .ok dev
  else
    match dev.type with
    | none => .error .keyError           -- codec_preferences[None]
    | some t =>
      match alookup prefs t with
      | none => .error .keyError         -- codec_preferences[t]
      | some camCodec =>
        match dev.paths with
        | [] => .error .indexError       -- device["paths"][0]
        | mainPath :: _ =>
          match mainPath.toList.getLast? with
          | none => .error .indexError   -- main_path[-1] on ""
          | some c =>
            if c.isDigit then
              match getCameraSpecs (probe mainPath) camCodec with
              | [] => .error .indexError -- all_specs[0]
              | best :: _ =>
                .ok { dev with camId := some (c.toNat - 48),
                               camParam := some best }
            else .error .valueError      -- int() on a non-digit

/-- The loop of `_get_best_cam_param` over all devices; the first uncaught
exception aborts the whole construction. -/
def getBestCamParamList (prefs : List (String × String))
    (probe : String → Option (List String)) :
    List DeviceRecord → Except PyError (List DeviceRecord)
  | [] => .ok []
  | d :: rest =>
    match getBestCamParamDev prefs probe d with
    | .error e => .error e
    | .ok d' =>
      match getBestCamParamList prefs probe rest with
      | .error e => .error e
      | .ok rest' => .ok (d' :: rest')

/-! ### Camera Pool (`_group_cameras_by_type`, `get_camera`) -/

/-- `stacks = {"termal": [], "cam": [], "realsense": []}`. -/
def initialStacks : List (String × List DeviceRecord) :=
  [("termal", []), ("cam", []), ("realsense", [])]

/-- The loop of `_group_cameras_by_type`:
`stacks[camera["type"]].append(camera)`; a type that is not a key of the
fixed dict (including `None` and `""`) raises `KeyError`. -/
def groupLoop (stks : List (String × List DeviceRecord)) :
    List DeviceRecord → Except PyError (List (String × List DeviceRecord))
  | [] => .ok stks
  | cam :: rest =>
    match cam.type with
    | none => .error .keyError
    | some t =>
      match alookup stks t with
      | none => .error .keyError
      | some l => groupLoop (aupdate stks t (l ++ [cam])) rest

/-- `_group_cameras_by_type`. -/
def groupCamerasByType (devices : List DeviceRecord) :
    Except PyError (List (String × List DeviceRecord)) :=
  groupLoop initialStacks devices

/-! ### Researcher (`__init__`, `_discover_cameras`, `get_camera`) -/

/-- The observable state of a constructed `CameraResearcher`:
`noCamFound` is `self.__NO_CAM_FOUND`; `stks = none` models
`self._camera_stacks_by_group` never having been assigned. -/
structure Researcher where
  noCamFound : Bool
  stks : Option (List (String × List DeviceRecord))
  deriving Repr, DecidableEq

/-- `_get_detailed_info`: `listing = none` models `subprocess.run`
raising one of the two caught exceptions (the method then returns
`None`); otherwise the output lines are parsed, and a `KeyError` from
`_parse_detailed_info` is not caught. -/
def getDetailedInfo (listing : Option (List String)) :
    Except PyError (Option (List DeviceRecord)) :=
  match listing with
  | none => .ok none
  | some lines =>
    match parseDetailedInfo lines with
    | none => .error .keyError
    | some devs => .ok (some devs)

/-- `_discover_cameras` as run by `__init__`: list, classify, pick best
parameters, build the pool — or set the terminal no-camera state when the
listing step yields `None` or `[]` (`if not self._detailed_info`). -/
def discoverCameras (listing : Option (List String))
    (config : List (String × List String))
    (probe : String → Option (List String)) : Except PyError Researcher :=
  match getDetailedInfo listing with
  | .error e => .error e
  | .ok none => .ok { noCamFound := true, stks := none }
  | .ok (some []) => .ok { noCamFound := true, stks := none }
  | .ok (some devs) =>
    match getBestCamParamList codecPreferences probe (getCamType config devs) with
    | .error e => .error e
    | .ok withParams =>
      match groupCamerasByType withParams with
      | .error e => .error e
      | .ok stks => .ok { noCamFound := false, stks := some stks }

/-- `get_camera`: returns `None` at once in the terminal no-camera state;
otherwise `self._camera_stacks_by_group[cam_type].pop()` with only
`IndexError` caught (empty list → `None`); a `KeyError` for an unknown
type propagates.  The returned `Researcher` is the state after the
in-place `pop`. -/
def getCameraE (r : Researcher) (camType : String) :
    Except PyError (Option DeviceRecord × Researcher) :=
  if r.noCamFound then .ok (none, r)
  else
    match r.stks with
    | none => .error .attrError
    | some stks =>
      match alookup stks camType with
      | none => .error .keyError
      | some l =>
        match l.getLast? with
        | none => .ok (none, r)
        | some x =>
          .ok (some x,
            { noCamFound := false,
              stks := some (aupdate stks camType l.dropLast) })

/-- `n` successive `get_camera(t)` calls, collecting the returned values
and threading the pool state. -/
def claimMany (t : String) : Nat → Researcher →
    Except PyError (List (Option DeviceRecord) × Researcher)
  | 0, r => .ok ([], r)
  | n + 1, r =>
    match getCameraE r t with
    | .error e => .error e
    | .ok (x, r') =>
      match claimMany t n r' with
      | .error e => .error e
      | .ok (xs, r'') => .ok (x :: xs, r'')

/-! ### Specification-side view of the parser (spec §4.1)

These definitions follow the spec's words — one record per header line,
with the path lines of its block — and are compared with the embedded
`_parse_detailed_info` in the refinement theorem for C5. -/

/-- Inputs on which the parser meets the spec's precondition that
path-like lines before any header are tolerated: here, the lines before
the first header contain no path line (otherwise the code raises
`KeyError`). -/
def wfLines (lines : List String) : Bool :=
  (lines.takeWhile (fun l => !isHeaderLine l)).all (fun l => !isPathLine l)

/-- Spec §4.1: the path lines of the block that started just before `ls`,
i.e. of the lines up to the next header, in listing order. -/
def blockPaths (ls : List String) : List String :=
  ((ls.takeWhile fun x => !isHeaderLine x).filter isPathLine).map pathString

/-- Spec §4.1, fuelled for structural termination: one record per header
line, in header order, carrying its block's path lines.  Any
`fuel ≥ ls.length` gives the same value (`specDevices_irrel`). -/
def specDevices : Nat → List String → List DeviceRecord
  | _, [] => []
  | 0, _ :: _ => []
  | n + 1, l :: ls =>
    if isHeaderLine l then
      { freshDevice l with paths := blockPaths ls } ::
        specDevices n (ls.dropWhile fun x => !isHeaderLine x)
    else specDevices n ls

/-- Spec §4.1 with the canonical fuel. -/
def specDevicesAll (ls : List String) : List DeviceRecord :=
  specDevices ls.length ls

/-! ### Parser lemmas -/

theorem header_not_blank {l : String} (h : isHeaderLine l = true) :
    isBlankLine l = false := by
  unfold isHeaderLine at h
  simp only [Bool.and_eq_true, Bool.not_eq_true'] at h
  unfold isBlankLine
  exact h.1.1

theorem blank_not_header {l : String} (h : isBlankLine l = true) :
    isHeaderLine l = false := by
  cases hh : isHeaderLine l with
  | false => rfl
  | true => rw [header_not_blank hh] at h; cases h

theorem blank_not_path {l : String} (h : isBlankLine l = true) :
    isPathLine l = false := by
  unfold isPathLine
  rw [h]
  rfl

theorem path_not_header {l : String} (h : isPathLine l = true) :
    isHeaderLine l = false := by
  unfold isPathLine at h
  cases hh : isHeaderLine l with
  | false => rfl
  | true => rw [hh] at h; simp at h

theorem specDevices_irrel : ∀ (n : Nat) (ls : List String) (m : Nat),
    ls.length ≤ n → ls.length ≤ m → specDevices n ls = specDevices m ls := by
  intro n
  induction n with
  | zero =>
    intro ls m h1 _
    cases ls with
    | nil => cases m <;> rfl
    | cons l ls' => simp at h1
  | succ n ih =>
    intro ls m h1 h2
    cases ls with
    | nil => cases m <;> rfl
    | cons l ls' =>
      cases m with
      | zero => simp at h2
      | succ m' =>
        simp only [List.length_cons, Nat.add_le_add_iff_right] at h1 h2
        simp only [specDevices]
        cases hh : isHeaderLine l with
        | true =>
          rw [if_pos rfl, if_pos rfl]
          have hd : (ls'.dropWhile fun x => !isHeaderLine x).length ≤ ls'.length :=
            (List.dropWhile_sublist _).length_le
          rw [ih _ m' (le_trans hd h1) (le_trans hd h2)]
        | false =>
          rw [if_neg (by simp), if_neg (by simp)]
          exact ih _ m' h1 h2

theorem specDevicesAll_cons_header {l : String} {ls : List String}
    (h : isHeaderLine l = true) :
    specDevicesAll (l :: ls) =
      { freshDevice l with paths := blockPaths ls } ::
        specDevicesAll (ls.dropWhile fun x => !isHeaderLine x) := by
  unfold specDevicesAll
  simp only [List.length_cons, specDevices]
  rw [if_pos h]
  rw [specDevices_irrel ls.length _ _ (List.dropWhile_sublist _).length_le
    (le_refl _)]

theorem specDevicesAll_cons_skip {l : String} {ls : List String}
    (h : isHeaderLine l = false) :
    specDevicesAll (l :: ls) = specDevicesAll ls := by
  unfold specDevicesAll
  simp only [List.length_cons, specDevices]
  rw [if_neg (by simp [h])]

theorem blockPaths_cons_skip {l : String} {ls : List String}
    (hh : isHeaderLine l = false) (hp : isPathLine l = false) :
    blockPaths (l :: ls) = blockPaths ls := by
  unfold blockPaths
  rw [List.takeWhile_cons_of_pos (by simp [hh])]
  rw [List.filter_cons_of_neg (by simp [hp])]

theorem blockPaths_cons_path {l : String} {ls : List String}
    (hp : isPathLine l = true) :
    blockPaths (l :: ls) = pathString l :: blockPaths ls := by
  unfold blockPaths
  rw [List.takeWhile_cons_of_pos (by simp [path_not_header hp])]
  rw [List.filter_cons_of_pos (by simp [hp])]
  rfl

theorem blockPaths_cons_header {l : String} {ls : List String}
    (hh : isHeaderLine l = true) :
    blockPaths (l :: ls) = [] := by
  unfold blockPaths
  rw [List.takeWhile_cons_of_neg (by simp [hh])]
  rfl

theorem dropWhileH_cons_skip {l : String} {ls : List String}
    (hh : isHeaderLine l = false) :
    ((l :: ls).dropWhile fun x => !isHeaderLine x) =
      ls.dropWhile fun x => !isHeaderLine x := by
  rw [List.dropWhile_cons_of_pos (by simp [hh])]

theorem dropWhileH_cons_header {l : String} {ls : List String}
    (hh : isHeaderLine l = true) :
    ((l :: ls).dropWhile fun x => !isHeaderLine x) = l :: ls := by
  rw [List.dropWhile_cons_of_neg (by simp [hh])]

theorem parseLoop_cons_blank {l : String} {ls : List String}
    {devs : List DeviceRecord} {cur : Option DeviceRecord}
    (hb : isBlankLine l = true) :
    parseLoop (l :: ls) devs cur = parseLoop ls devs cur := by
  simp [parseLoop, hb]

theorem parseLoop_cons_header {l : String} {ls : List String}
    {devs : List DeviceRecord} {cur : Option DeviceRecord}
    (hh : isHeaderLine l = true) :
    parseLoop (l :: ls) devs cur =
      parseLoop ls (devs ++ cur.toList) (some (freshDevice l)) := by
  simp [parseLoop, header_not_blank hh, hh]

theorem parseLoop_cons_path {l : String} {ls : List String}
    {devs : List DeviceRecord} {d : DeviceRecord}
    (hp : isPathLine l = true) :
    parseLoop (l :: ls) devs (some d) =
      parseLoop ls devs (some { d with paths := d.paths ++ [pathString l] }) := by
  have hb : isBlankLine l = false := by
    unfold isPathLine at hp
    cases hx : isBlankLine l with
    | false => rfl
    | true => rw [hx] at hp; simp at hp
  simp [parseLoop, hb, path_not_header hp, hp]

theorem parseLoop_cons_path_none {l : String} {ls : List String}
    {devs : List DeviceRecord} (hp : isPathLine l = true) :
    parseLoop (l :: ls) devs none = none := by
  have hb : isBlankLine l = false := by
    unfold isPathLine at hp
    cases hx : isBlankLine l with
    | false => rfl
    | true => rw [hx] at hp; simp at hp
  simp [parseLoop, hb, path_not_header hp, hp]

theorem parseLoop_cons_other {l : String} {ls : List String}
    {devs : List DeviceRecord} {cur : Option DeviceRecord}
    (hb : isBlankLine l = false) (hh : isHeaderLine l = false)
    (hp : isPathLine l = false) :
    parseLoop (l :: ls) devs cur = parseLoop ls devs cur := by
  simp [parseLoop, hb, hh, hp]

/-- With a block open, the parser closes it with exactly the path lines up
to the next header and then continues per the spec from that header. -/
theorem parseLoop_open : ∀ (ls : List String) (devs : List DeviceRecord)
    (d : DeviceRecord),
    parseLoop ls devs (some d) =
      some (devs ++ ({ d with paths := d.paths ++ blockPaths ls } ::
        specDevicesAll (ls.dropWhile fun x => !isHeaderLine x))) := by
  intro ls
  induction ls with
  | nil =>
    intro devs d
    simp [parseLoop, blockPaths, specDevicesAll, specDevices]
  | cons l ls ih =>
    intro devs d
    cases hb : isBlankLine l with
    | true =>
      rw [parseLoop_cons_blank hb, ih devs d,
        blockPaths_cons_skip (blank_not_header hb) (blank_not_path hb),
        dropWhileH_cons_skip (blank_not_header hb)]
    | false =>
      cases hh : isHeaderLine l with
      | true =>
        rw [parseLoop_cons_header hh]
        show parseLoop ls (devs ++ [d]) (some (freshDevice l)) = _
        rw [ih (devs ++ [d]) (freshDevice l),
          blockPaths_cons_header hh, dropWhileH_cons_header hh,
          specDevicesAll_cons_header hh]
        simp [freshDevice]
      | false =>
        cases hp : isPathLine l with
        | true =>
          rw [parseLoop_cons_path hp,
            ih devs { d with paths := d.paths ++ [pathString l] },
            blockPaths_cons_path hp,
            dropWhileH_cons_skip (path_not_header hp)]
          simp
        | false =>
          rw [parseLoop_cons_other hb hh hp, ih devs d,
            blockPaths_cons_skip hh hp, dropWhileH_cons_skip hh]

theorem wfLines_cons_of_not_header {l : String} {ls : List String}
    (hh : isHeaderLine l = false) :
    wfLines (l :: ls) = true ↔ (isPathLine l = false ∧ wfLines ls = true) := by
  unfold wfLines
  rw [List.takeWhile_cons_of_pos (by simp [hh])]
  simp

/-- With no block open and no stray path line before the first header, the
parser produces exactly the spec's records. -/
theorem parseLoop_closed : ∀ (ls : List String) (devs : List DeviceRecord),
    wfLines ls = true →
    parseLoop ls devs none = some (devs ++ specDevicesAll ls) := by
  intro ls
  induction ls with
  | nil => intro devs _; rfl
  | cons l ls ih =>
    intro devs hwf
    cases hh : isHeaderLine l with
    | true =>
      rw [parseLoop_cons_header hh]
      show parseLoop ls (devs ++ []) (some (freshDevice l)) = _
      rw [parseLoop_open ls (devs ++ []) (freshDevice l),
        specDevicesAll_cons_header hh]
      simp [freshDevice]
    | false =>
      have h2 := (wfLines_cons_of_not_header hh).mp hwf
      cases hb : isBlankLine l with
      | true =>
        rw [parseLoop_cons_blank hb, ih devs h2.2,
          specDevicesAll_cons_skip hh]
      | false =>
        rw [parseLoop_cons_other hb hh h2.1, ih devs h2.2,
          specDevicesAll_cons_skip hh]

theorem filter_header_takeWhile (ls : List String) :
    (ls.takeWhile fun x => !isHeaderLine x).filter isHeaderLine = [] := by
  rw [List.filter_eq_nil_iff]
  intro x hx
  have := List.mem_takeWhile_imp hx
  simp at this
  simp [this]

theorem filter_header_dropWhile (ls : List String) :
    ls.filter isHeaderLine =
      (ls.dropWhile fun x => !isHeaderLine x).filter isHeaderLine := by
  conv_lhs =>
    rw [← List.takeWhile_append_dropWhile (fun x => !isHeaderLine x) ls]
  rw [List.filter_append, filter_header_takeWhile]
  rfl

/-- The spec-side records list one record per header line, in header
order, named by the header normalisation. -/
theorem specDevicesAll_names : ∀ (n : Nat) (ls : List String),
    ls.length ≤ n →
    (specDevicesAll ls).map DeviceRecord.name =
      (ls.filter isHeaderLine).map headerName := by
  intro n
  induction n with
  | zero =>
    intro ls h
    cases ls with
    | nil => rfl
    | cons l ls' => simp at h
  | succ n ih =>
    intro ls h
    cases ls with
    | nil => rfl
    | cons l ls' =>
      simp only [List.length_cons, Nat.add_le_add_iff_right] at h
      cases hh : isHeaderLine l with
      | true =>
        rw [specDevicesAll_cons_header hh,
          List.filter_cons_of_pos (by simp [hh])]
        simp only [List.map_cons]
        have hd : (ls'.dropWhile fun x => !isHeaderLine x).length ≤ n :=
          le_trans (List.dropWhile_sublist _).length_le h
        rw [ih _ hd, ← filter_header_dropWhile]
        rfl
      | false =>
        rw [specDevicesAll_cons_skip hh,
          List.filter_cons_of_neg (by simp [hh])]
        exact ih _ h

/-! ### Claim C5: Device List Parser -/

/-- C5: for all well-formed enumeration text with N header lines
(non-indented lines without the path-marker substring), the parser
returns exactly N DeviceRecords in header order, each with its path
lines appended in listing order (this is what `specDevicesAll` states,
per block); a block with zero path lines still yields a record; empty
input yields an empty sequence, not an error. -/
theorem claim_C5_device_list :
    (∀ lines, wfLines lines = true →
      parseDetailedInfo lines = some (specDevicesAll lines) ∧
      (specDevicesAll lines).map DeviceRecord.name =
        (lines.filter isHeaderLine).map headerName ∧
      (specDevicesAll lines).length = (lines.filter isHeaderLine).length) ∧
    parseDetailedInfo [] = some [] := by
  constructor
  · intro lines hwf
    refine ⟨?_, ?_, ?_⟩
    · unfold parseDetailedInfo
      rw [parseLoop_closed lines [] hwf]
      rfl
    · exact specDevicesAll_names lines.length lines (le_refl _)
    · have h := congrArg List.length
        (specDevicesAll_names lines.length lines (le_refl _))
      simpa using h
  · rfl

/-- The spec's own §8 example listing, extended with a zero-path block. -/
def c5Lines : List String :=
  ["ThermalCam One:", "\t/dev/video0", "\t/dev/video1", "Webcam Two:",
   "\t/dev/video2", "Ghost Cam"]

theorem claim_C5_device_list_witness :
    parseDetailedInfo c5Lines = some
      [{ name := "ThermalCam One", type := some "",
         paths := ["/dev/video0", "/dev/video1"], camId := none,
         camParam := none },
       { name := "Webcam Two", type := some "", paths := ["/dev/video2"],
         camId := none, camParam := none },
       { name := "Ghost Cam", type := some "", paths := [], camId := none,
         camParam := none }] :=
  ((claim_C5_device_list.1 c5Lines (by decide)).1).trans (by decide)

/-! ### Claim C9: header-name normalisation -/

theorem mem_of_mem_rstripL {c : Char} {cs : List Char}
    (h : c ∈ rstripL cs) : c ∈ cs := by
  unfold rstripL at h
  rw [List.mem_reverse] at h
  exact List.mem_reverse.mp ((List.dropWhile_sublist _).mem h)

theorem mem_of_mem_stripL {c : Char} {cs : List Char}
    (h : c ∈ stripL cs) : c ∈ cs := by
  unfold stripL at h
  exact (List.dropWhile_sublist _).mem (mem_of_mem_rstripL h)

theorem headerName_colon_free (l : String) : ':' ∉ (headerName l).toList := by
  intro hmem
  have h1 : ':' ∈ (rstripL l.toList).filter (fun c => c != ':') :=
    mem_of_mem_stripL hmem
  have h2 := List.of_mem_filter h1
  simp at h2

/-- Every name the parser ever emits is colon-free. -/
theorem parseLoop_names_colon_free : ∀ (ls : List String)
    (devs : List DeviceRecord) (cur : Option DeviceRecord)
    (out : List DeviceRecord),
    (∀ d ∈ devs, ':' ∉ d.name.toList) →
    (∀ d, cur = some d → ':' ∉ d.name.toList) →
    parseLoop ls devs cur = some out →
    ∀ d ∈ out, ':' ∉ d.name.toList := by
  intro ls
  induction ls with
  | nil =>
    intro devs cur out hdevs hcur h d hd
    have hout : devs ++ cur.toList = out := by
      simpa [parseLoop] using h
    rw [← hout] at hd
    rcases List.mem_append.mp hd with hl | hr
    · exact hdevs d hl
    · cases cur with
      | none => simp at hr
      | some d0 =>
        simp at hr
        rw [hr]
        exact hcur d0 rfl
  | cons l ls ih =>
    intro devs cur out hdevs hcur h
    cases hh : isHeaderLine l with
    | true =>
      rw [parseLoop_cons_header hh] at h
      refine ih _ _ _ ?_ ?_ h
      · intro d hd
        rcases List.mem_append.mp hd with hl | hr
        · exact hdevs d hl
        · cases cur with
          | none => simp at hr
          | some d0 =>
            simp at hr
            rw [hr]
            exact hcur d0 rfl
      · intro d hd
        cases hd
        exact headerName_colon_free l
    | false =>
      cases hb : isBlankLine l with
      | true =>
        rw [parseLoop_cons_blank hb] at h
        exact ih _ _ _ hdevs hcur h
      | false =>
        cases hp : isPathLine l with
        | true =>
          cases cur with
          | none => rw [parseLoop_cons_path_none hp] at h; cases h
          | some d0 =>
            rw [parseLoop_cons_path hp] at h
            refine ih _ _ _ hdevs ?_ h
            intro d hd
            cases hd
            exact hcur d0 rfl
        | false =>
          rw [parseLoop_cons_other hb hh hp] at h
          exact ih _ _ _ hdevs hcur h

/-- C9 (amended): the record's name is the header line with *every*
separator character removed (interior ones included) and whitespace
trimmed; consequently no produced name contains a separator at all. -/
theorem claim_C9_header_name :
    (∀ l, isHeaderLine l = true →
      parseDetailedInfo [l] = some
        [{ name := String.mk
             (stripL ((rstripL l.toList).filter (fun c => c != ':'))),
           type := some "", paths := [], camId := none, camParam := none }]) ∧
    (∀ lines out, parseDetailedInfo lines = some out →
      ∀ d ∈ out, ':' ∉ d.name.toList) := by
  constructor
  · intro l hh
    unfold parseDetailedInfo
    rw [parseLoop_cons_header hh]
    rfl
  · intro lines out h
    exact parseLoop_names_colon_free lines [] none out (by simp) (by simp) h

theorem claim_C9_header_name_witness :
    parseDetailedInfo ["HD Webcam C920"] = some
      [{ name := "HD Webcam C920", type := some "", paths := [],
         camId := none, camParam := none }] :=
  (claim_C9_header_name.1 "HD Webcam C920" (by decide)).trans (by decide)

/-- C9 counterexample: on the header line `"Cam: One:"` the code removes
the *interior* separator as well, producing `"Cam One"`, not the
`"Cam: One"` the claim requires. -/
theorem claim_C9_counterexample :
    parseDetailedInfo ["Cam: One:"] = some
      [{ name := "Cam One", type := some "", paths := [], camId := none,
         camParam := none }] ∧
    ("Cam One" : String) ≠ "Cam: One" := by
  exact ⟨by decide, by decide⟩

/-! ### Association-list lemmas for the pool -/

theorem alookup_aupdate_self {α : Type} : ∀ (s : List (String × α))
    (t : String) (v w : α),
    alookup s t = some w → alookup (aupdate s t v) t = some v := by
  intro s
  induction s with
  | nil => intro t v w h; cases h
  | cons p rest ih =>
    intro t v w h
    cases hp : (p.1 == t) with
    | true => simp [alookup, aupdate, hp]
    | false =>
      have h' : alookup rest t = some w := by
        simp only [alookup] at h
        rwa [if_neg (by simp [hp])] at h
      simp only [aupdate]
      rw [if_neg (by simp [hp])]
      simp only [alookup]
      rw [if_neg (by simp [hp])]
      exact ih t v w h'

theorem aupdate_aupdate {α : Type} : ∀ (s : List (String × α))
    (t : String) (v₁ v₂ : α),
    aupdate (aupdate s t v₁) t v₂ = aupdate s t v₂ := by
  intro s
  induction s with
  | nil => intro t v₁ v₂; rfl
  | cons p rest ih =>
    intro t v₁ v₂
    cases hp : (p.1 == t) with
    | true => simp [aupdate, hp, ih]
    | false => simp [aupdate, hp, ih]

theorem aupdate_keys {α : Type} : ∀ (s : List (String × α)) (t : String)
    (v : α), (aupdate s t v).map Prod.fst = s.map Prod.fst := by
  intro s
  induction s with
  | nil => intro t v; rfl
  | cons p rest ih =>
    intro t v
    cases hp : (p.1 == t) with
    | true => simp [aupdate, hp, ih]
    | false => simp [aupdate, hp, ih]

theorem aupdate_of_no_key {α : Type} : ∀ (s : List (String × α))
    (t : String) (v : α),
    (∀ q ∈ s, q.1 ≠ t) → aupdate s t v = s := by
  intro s
  induction s with
  | nil => intro t v _; rfl
  | cons p rest ih =>
    intro t v hall
    have hp : (p.1 == t) = false :=
      beq_eq_false_iff_ne.mpr (hall p (by simp))
    simp only [aupdate, hp]
    simp only [Bool.false_eq_true, if_neg, not_false_iff]
    rw [ih t v (fun q hq => hall q (by simp [hq]))]

theorem aupdate_self {α : Type} : ∀ (s : List (String × α)) (t : String)
    (v : α), (s.map Prod.fst).Nodup → alookup s t = some v →
    aupdate s t v = s := by
  intro s
  induction s with
  | nil => intro t v _ h; cases h
  | cons p rest ih =>
    intro t v hnd h
    simp only [List.map_cons, List.nodup_cons] at hnd
    cases hp : (p.1 == t) with
    | true =>
      simp only [alookup] at h
      simp only [aupdate]
      rw [if_pos hp] at h
      rw [if_pos hp]
      have hpt : p.1 = t := beq_iff_eq.mp hp
      have hv : v = p.2 := by
        cases h
        rfl
      subst hv
      rw [aupdate_of_no_key rest t p.2 (fun q hq hqt => hnd.1 (by
        rw [hpt, ← hqt]
        exact List.mem_map_of_mem Prod.fst hq))]
    | false =>
      simp only [alookup] at h
      simp only [aupdate]
      rw [if_neg (by simp [hp])] at h
      rw [if_neg (by simp [hp])]
      rw [ih t v hnd.2 h]

/-! ### `get_camera` step lemmas -/

theorem getCameraE_pop {stks : List (String × List DeviceRecord)}
    {t : String} {init : List DeviceRecord} {x : DeviceRecord}
    (h : alookup stks t = some (init ++ [x])) :
    getCameraE ⟨false, some stks⟩ t =
      .ok (some x, ⟨false, some (aupdate stks t init)⟩) := by
  simp [getCameraE, h]

theorem getCameraE_empty {stks : List (String × List DeviceRecord)}
    {t : String} (h : alookup stks t = some []) :
    getCameraE ⟨false, some stks⟩ t = .ok (none, ⟨false, some stks⟩) := by
  simp [getCameraE, h]

theorem getCameraE_unknown {stks : List (String × List DeviceRecord)}
    {t : String} (h : alookup stks t = none) :
    getCameraE ⟨false, some stks⟩ t = .error .keyError := by
  simp [getCameraE, h]

theorem claimMany_succ_ok {t : String} {n : Nat} {r : Researcher}
    {x : Option DeviceRecord} {r' : Researcher}
    (h : getCameraE r t = .ok (x, r'))
    {out : List (Option DeviceRecord)} {r'' : Researcher}
    (h2 : claimMany t n r' = .ok (out, r'')) :
    claimMany t (n + 1) r = .ok (x :: out, r'') := by
  simp only [claimMany, h, h2]

/-- Draining a known type: the k devices come back in reverse-discovery
order, then one exhausted signal, leaving that type's sequence empty. -/
theorem claimMany_drain : ∀ (l : List DeviceRecord)
    (stks : List (String × List DeviceRecord)) (t : String),
    (stks.map Prod.fst).Nodup → alookup stks t = some l →
    claimMany t (l.length + 1) ⟨false, some stks⟩ =
      .ok (l.reverse.map some ++ [none],
        ⟨false, some (aupdate stks t [])⟩) := by
  intro l
  induction l using List.reverseRecOn with
  | nil =>
    intro stks t hnd h
    simp only [List.length_nil, Nat.zero_add, claimMany]
    rw [getCameraE_empty h]
    simp only [claimMany]
    rw [aupdate_self stks t [] hnd h]
    rfl
  | append_singleton init x ih =>
    intro stks t hnd h
    have hl : (init ++ [x]).length + 1 = (init.length + 1) + 1 := by simp
    rw [hl]
    have hnd' : ((aupdate stks t init).map Prod.fst).Nodup := by
      rw [aupdate_keys]
      exact hnd
    have hlk : alookup (aupdate stks t init) t = some init :=
      alookup_aupdate_self stks t init _ h
    have h2 := ih (aupdate stks t init) t hnd' hlk
    rw [aupdate_aupdate] at h2
    have h3 := claimMany_succ_ok (getCameraE_pop h) h2
    rw [h3]
    simp [List.reverse_append]

/-! ### Claim C3: claim semantics -/

/-- C3 counterexample: a claim for a type label unknown to the pool is a
hard `KeyError`, not an exhausted signal (here on a freshly built empty
pool). -/
theorem claim_C3_counterexample :
    getCameraE ⟨false, some initialStacks⟩ "lidar" = .error .keyError := rfl

/-- C3 (amended): for a type known to the pool, `get_camera` removes and
returns the last element of that type's sequence, and signals an
exhausted outcome (returns `None`) when the sequence is empty; for a
type label unknown to the pool it raises `KeyError` instead of signalling
exhausted; on a pool holding the k devices `l` under type `t`, k
successive claims return them in reverse-discovery order and the
(k+1)-th signals exhausted. -/
theorem claim_C3_claim_order :
    (∀ (stks : List (String × List DeviceRecord)) (t : String)
      (init : List DeviceRecord) (x : DeviceRecord),
      alookup stks t = some (init ++ [x]) →
      getCameraE ⟨false, some stks⟩ t =
        .ok (some x, ⟨false, some (aupdate stks t init)⟩)) ∧
    (∀ (stks : List (String × List DeviceRecord)) (t : String),
      alookup stks t = some [] →
      getCameraE ⟨false, some stks⟩ t = .ok (none, ⟨false, some stks⟩)) ∧
    (∀ (stks : List (String × List DeviceRecord)) (t : String),
      alookup stks t = none →
      getCameraE ⟨false, some stks⟩ t = .error .keyError) ∧
    (∀ (stks : List (String × List DeviceRecord)) (t : String)
      (l : List DeviceRecord),
      (stks.map Prod.fst).Nodup → alookup stks t = some l →
      claimMany t (l.length + 1) ⟨false, some stks⟩ =
        .ok (l.reverse.map some ++ [none],
          ⟨false, some (aupdate stks t [])⟩)) :=
  ⟨fun _ _ _ _ h => getCameraE_pop h,
   fun _ _ h => getCameraE_empty h,
   fun _ _ h => getCameraE_unknown h,
   fun stks t l hnd h => claimMany_drain l stks t hnd h⟩

/-- Two thermal devices, in discovery order. -/
def dTherm1 : DeviceRecord :=
  { name := "FLIR One", type := some "termal", paths := ["/dev/video0"],
    camId := some 0, camParam := none }

def dTherm2 : DeviceRecord :=
  { name := "FLIR Two", type := some "termal", paths := ["/dev/video2"],
    camId := some 2, camParam := none }

theorem claim_C3_claim_order_witness :
    claimMany "termal" 3
      ⟨false, some [("termal", [dTherm1, dTherm2]), ("cam", []),
        ("realsense", [])]⟩ =
      .ok ([some dTherm2, some dTherm1, none],
        ⟨false, some [("termal", []), ("cam", []), ("realsense", [])]⟩) :=
  claim_C3_claim_order.2.2.2
    [("termal", [dTherm1, dTherm2]), ("cam", []), ("realsense", [])]
    "termal" [dTherm1, dTherm2] (by decide) (by decide)

/-! ### Claim C2: pool construction -/

/-- Grouping devices whose types all are known pool labels partitions
them per label, preserving discovery order. -/
theorem groupLoop_known : ∀ (devices : List DeviceRecord)
    (a b c : List DeviceRecord),
    (∀ d ∈ devices, d.type = some "termal" ∨ d.type = some "cam" ∨
      d.type = some "realsense") →
    groupLoop [("termal", a), ("cam", b), ("realsense", c)] devices =
      .ok [("termal", a ++ devices.filter (fun d => d.type == some "termal")),
           ("cam", b ++ devices.filter (fun d => d.type == some "cam")),
           ("realsense",
             c ++ devices.filter (fun d => d.type == some "realsense"))] := by
  intro devices
  induction devices with
  | nil => intro a b c _; simp [groupLoop]
  | cons d rest ih =>
    intro a b c hall
    have hrest : ∀ x ∈ rest, x.type = some "termal" ∨ x.type = some "cam" ∨
        x.type = some "realsense" := fun x hx => hall x (by simp [hx])
    rcases hall d (by simp) with h | h | h
    · rw [show groupLoop [("termal", a), ("cam", b), ("realsense", c)]
          (d :: rest) =
          groupLoop [("termal", a ++ [d]), ("cam", b), ("realsense", c)]
            rest from by simp [groupLoop, h, alookup, aupdate]]
      rw [ih (a ++ [d]) b c hrest]
      simp [List.filter_cons, h, List.append_assoc]
    · rw [show groupLoop [("termal", a), ("cam", b), ("realsense", c)]
          (d :: rest) =
          groupLoop [("termal", a), ("cam", b ++ [d]), ("realsense", c)]
            rest from by simp [groupLoop, h, alookup, aupdate]]
      rw [ih a (b ++ [d]) c hrest]
      simp [List.filter_cons, h, List.append_assoc]
    · rw [show groupLoop [("termal", a), ("cam", b), ("realsense", c)]
          (d :: rest) =
          groupLoop [("termal", a), ("cam", b), ("realsense", c ++ [d])]
            rest from by simp [groupLoop, h, alookup, aupdate]]
      rw [ih a b (c ++ [d]) hrest]
      simp [List.filter_cons, h, List.append_assoc]

/-- A record classified with the empty type label. -/
def devEmptyType : DeviceRecord :=
  { name := "X", type := some "", paths := [], camId := none,
    camParam := none }

/-- A record the classifier matched nothing for (`type = None`). -/
def devNoneType : DeviceRecord :=
  { name := "Y", type := none, paths := [], camId := none,
    camParam := none }

/-- C2 counterexample: a record whose type is empty (`""`) or unset
(`None`) makes `_group_cameras_by_type` raise `KeyError` — it is not
discarded. -/
theorem claim_C2_counterexample :
    groupCamerasByType [devEmptyType] = .error .keyError ∧
    groupCamerasByType [devNoneType] = .error .keyError :=
  ⟨rfl, rfl⟩

/-- C2 (amended): pool construction partitions a sequence of records whose
types all belong to the fixed label set termal/cam/realsense, without
error, and the per-type sequences are exactly the input records of that
type in discovery order (so their union is exactly the input); a record
whose type is empty or unset instead raises a `KeyError` — it is not
silently discarded, and it is never claimable. -/
theorem claim_C2_grouping : ∀ (devices : List DeviceRecord),
    (∀ d ∈ devices, d.type = some "termal" ∨ d.type = some "cam" ∨
      d.type = some "realsense") →
    groupCamerasByType devices =
      .ok [("termal", devices.filter (fun d => d.type == some "termal")),
           ("cam", devices.filter (fun d => d.type == some "cam")),
           ("realsense",
             devices.filter (fun d => d.type == some "realsense"))] := by
  intro devices h
  have := groupLoop_known devices [] [] [] h
  simpa [groupCamerasByType, initialStacks] using this

/-- One webcam between the two thermal cameras. -/
def dCam1 : DeviceRecord :=
  { name := "Webcam", type := some "cam", paths := ["/dev/video4"],
    camId := some 4, camParam := none }

theorem claim_C2_grouping_witness :
    groupCamerasByType [dTherm1, dCam1, dTherm2] =
      .ok [("termal", [dTherm1, dTherm2]), ("cam", [dCam1]),
           ("realsense", [])] :=
  claim_C2_grouping [dTherm1, dCam1, dTherm2] (by decide)

/-! ### Claim C4: Type Classifier -/

theorem findType_eq_find? : ∀ (camName : String)
    (table : List (String × List String)),
    findType camName table =
      (table.find? (fun p =>
        p.2.any (fun frag => fragMatches camName frag))).map Prod.fst := by
  intro camName table
  induction table with
  | nil => rfl
  | cons p rest ih =>
    obtain ⟨ty, frags⟩ := p
    cases hp : frags.any (fun frag => fragMatches camName frag) with
    | true => simp [findType, List.find?, hp]
    | false => simp [findType, List.find?, hp, ih]

theorem findType_first : ∀ (pre : List (String × List String)) (t : String)
    (frags : List String) (post : List (String × List String))
    (camName : String),
    (∀ p ∈ pre, ∀ frag ∈ p.2, fragMatches camName frag = false) →
    frags.any (fun frag => fragMatches camName frag) = true →
    findType camName (pre ++ (t, frags) :: post) = some t := by
  intro pre
  induction pre with
  | nil =>
    intro t frags post camName _ hm
    simp [findType, hm]
  | cons p pre' ih =>
    intro t frags post camName hpre hm
    obtain ⟨ty, fr⟩ := p
    have hp : fr.any (fun frag => fragMatches camName frag) = false := by
      rw [List.any_eq_false]
      intro x hx
      simp [hpre (ty, fr) (by simp) x hx]
    simp only [List.cons_append, findType]
    rw [if_neg (by simp [hp])]
    exact ih t frags post camName
      (fun q hq frag hfrag => hpre q (by simp [hq]) frag hfrag) hm

/-- C4: classification returns the first type label, in table iteration
order, that has a fragment which is a case-insensitive substring of the
name (first conjunct: equality with `find?`; third conjunct: explicit
first-match statement); it returns the unset label `none` exactly when no
fragment of any label matches (second conjunct); being a total Lean
function over all names and tables, it never fails. -/
theorem claim_C4_classifier :
    (∀ (camName : String) (table : List (String × List String)),
      findType camName table =
        (table.find? (fun p =>
          p.2.any (fun frag => fragMatches camName frag))).map Prod.fst) ∧
    (∀ (camName : String) (table : List (String × List String)),
      findType camName table = none ↔
        ∀ p ∈ table, ∀ frag ∈ p.2, fragMatches camName frag = false) ∧
    (∀ (camName : String) (pre : List (String × List String)) (t : String)
      (frags : List String) (post : List (String × List String)),
      (∀ p ∈ pre, ∀ frag ∈ p.2, fragMatches camName frag = false) →
      frags.any (fun frag => fragMatches camName frag) = true →
      findType camName (pre ++ (t, frags) :: post) = some t) := by
  refine ⟨findType_eq_find?, ?_, fun camName pre t frags post h1 h2 =>
    findType_first pre t frags post camName h1 h2⟩
  intro camName table
  rw [findType_eq_find?]
  constructor
  · intro h p hp frag hfrag
    have hn : table.find? (fun p =>
        p.2.any (fun frag => fragMatches camName frag)) = none := by
      cases hf : table.find? (fun p =>
          p.2.any (fun frag => fragMatches camName frag)) with
      | none => rfl
      | some q => rw [hf] at h; cases h
    have h2 := List.find?_eq_none.mp hn p hp
    cases hx : fragMatches camName frag with
    | false => rfl
    | true =>
      exact absurd (List.any_eq_true.mpr ⟨frag, hfrag, hx⟩) h2
  · intro hall
    have hn : table.find? (fun p =>
        p.2.any (fun frag => fragMatches camName frag)) = none := by
      rw [List.find?_eq_none]
      intro p hp hcon
      obtain ⟨frag, hfrag, hx⟩ := List.any_eq_true.mp hcon
      rw [hall p hp frag hfrag] at hx
      cases hx
    rw [hn]
    rfl

/-- An example configuration table; note the fragment case differs from
the device name's. -/
def cfgExample : List (String × List String) :=
  [("realsense", ["RealSense"]), ("termal", ["FLIR", "thermal"]),
   ("cam", ["Webcam", "USB"])]

theorem claim_C4_classifier_witness :
    findType "My flir A35" cfgExample = some "termal" :=
  claim_C4_classifier.2.2 "My flir A35" [("realsense", ["RealSense"])]
    "termal" ["FLIR", "thermal"] [("cam", ["Webcam", "USB"])]
    (by decide) (by decide)

/-! ### Claims C6 and C10: Format List Parser & Selector -/

/-- Every candidate the scanning loop emits carries the preferred tag. -/
theorem specsLoop_format : ∀ (lines : List String) (codec : String)
    (curF : Option String) (curR : Option (Nat × Nat)) (c : CamSpec),
    c ∈ specsLoop codec lines curF curR → c.format = codec := by
  intro lines
  induction lines with
  | nil => intro codec curF curR c hc; cases hc
  | cons l rest ih =>
    intro codec curF curR c hc
    simp only [specsLoop] at hc
    split at hc
    · exact ih codec _ _ c hc
    · split at hc
      · exact ih codec _ _ c hc
      · rename_i f
        split at hc
        · rename_i hfc
          split at hc
          · exact ih codec _ _ c hc
          · split at hc
            · split at hc
              · rcases List.mem_cons.mp hc with hhd | htl
                · rw [hhd]
                  exact beq_iff_eq.mp hfc
                · exact ih codec _ _ c htl
              · exact ih codec _ _ c hc
            · exact ih codec _ _ c hc
        · exact ih codec _ _ c hc

/-- When `_get_best_cam_param` succeeds on a device, it either left the
record untouched (no codec preference applies) or stored exactly the
*first* candidate of the probe's listing — no ranking happens. -/
theorem getBestCamParamDev_best :
    ∀ (prefs : List (String × String))
      (probe : String → Option (List String)) (dev dev' : DeviceRecord),
    getBestCamParamDev prefs probe dev = .ok dev' →
    dev'.camParam = dev.camParam ∨
      (∃ path codec, dev.paths.head? = some path ∧
        dev.type.bind (alookup prefs) = some codec ∧
        dev'.camParam = (getCameraSpecs (probe path) codec).head?) := by
  intro prefs probe dev dev' h
  unfold getBestCamParamDev at h
  split at h
  · cases h
    exact Or.inl rfl
  · split at h
    · cases h
    · rename_i t htype
      split at h
      · cases h
      · rename_i codec hpref
        split at h
        · cases h
        · rename_i mainPath restPaths hpaths
          split at h
          · cases h
          · rename_i ch hlast
            split at h
            · split at h
              · cases h
              · rename_i best restSpecs hspecs
                cases h
                refine Or.inr ⟨mainPath, codec, ?_, ?_, ?_⟩
                · rw [hpaths]
                  rfl
                · rw [htype]
                  exact hpref
                · rw [hspecs]
                  rfl
            · cases h

/-- A listing interleaving three tags; the preferred tag's section sits
between the two others, with several sizes and rates. -/
def sampleListing : List String :=
  ["ioctl: VIDIOC_ENUM_FMT",
   "[0]: 'YUYV' (YUYV 4:2:2)",
   "   Size: Discrete 1280x720",
   "      Interval: Discrete 0.100s (10.000 fps)",
   "[1]: 'MJPG' (Motion-JPEG, compressed)",
   "   Size: Discrete 1920x1080",
   "      Interval: Discrete 0.033s (30.000 fps)",
   "      Interval: Discrete 0.067s (15.000 fps)",
   "   Size: Discrete 640x480",
   "      Interval: Discrete 0.017s (60.000 fps)",
   "[2]: 'H264' (H.264, compressed)",
   "   Size: Discrete 800x600",
   "      Interval: Discrete 0.033s (30.000 fps)"]

/-- C6: the candidate sequence holds only entries with the preferred tag
(first conjunct, for every listing); the chosen best is the first emitted
candidate, with no ranking (second conjunct); and on an interleaved
listing the candidates appear in listing order, restricted to the
preferred tag, with state resuming across foreign sections (concrete
conjuncts). -/
theorem claim_C6_tag_restriction :
    (∀ (codec : String) (lines : List String) (curF : Option String)
      (curR : Option (Nat × Nat)) (c : CamSpec),
      c ∈ specsLoop codec lines curF curR → c.format = codec) ∧
    (∀ (prefs : List (String × String))
      (probe : String → Option (List String)) (dev dev' : DeviceRecord),
      getBestCamParamDev prefs probe dev = .ok dev' →
      dev'.camParam = dev.camParam ∨
        (∃ path codec, dev.paths.head? = some path ∧
          dev.type.bind (alookup prefs) = some codec ∧
          dev'.camParam = (getCameraSpecs (probe path) codec).head?)) ∧
    getCameraSpecs (some sampleListing) "MJPG" =
      [{ format := "MJPG", width := 1920, height := 1080, fps := "30.000" },
       { format := "MJPG", width := 1920, height := 1080, fps := "15.000" },
       { format := "MJPG", width := 640, height := 480, fps := "60.000" }] ∧
    getCameraSpecs (some sampleListing) "YUYV" =
      [{ format := "YUYV", width := 1280, height := 720, fps := "10.000" }] :=
  ⟨fun codec lines curF curR c hc => specsLoop_format lines codec curF curR c hc,
   getBestCamParamDev_best, by decide, by decide⟩

theorem claim_C6_tag_restriction_witness :
    ({ format := "MJPG", width := 1920, height := 1080,
       fps := "30.000" } : CamSpec).format = "MJPG" :=
  claim_C6_tag_restriction.1 "MJPG" sampleListing none none
    { format := "MJPG", width := 1920, height := 1080, fps := "30.000" }
    (by decide)

/-- No line without a decimal point can produce a frame-rate match. -/
theorem tryFpsAt_no_dot : ∀ (cs : List Char), ('.' : Char) ∉ cs →
    tryFpsAt cs = none := by
  intro cs h
  unfold tryFpsAt
  split
  · rename_i rest
    have hdot : ('.' : Char) ∉ rest.dropWhile Char.isDigit := fun hm =>
      h (List.mem_cons_of_mem _ ((List.dropWhile_sublist _).mem hm))
    split
    · rfl
    · split
      · rename_i r2 heq
        exact absurd (by rw [heq]; exact List.mem_cons_self '.' r2 : ('.' : Char) ∈ rest.dropWhile Char.isDigit) hdot
      · rfl
  · rfl

theorem fpsSearch_no_dot : ∀ (cs : List Char), ('.' : Char) ∉ cs →
    fpsSearch cs = none := by
  intro cs
  induction cs with
  | nil => intro _; rfl
  | cons c rest ih =>
    intro h
    simp only [fpsSearch]
    rw [tryFpsAt_no_dot (c :: rest) h]
    exact ih (fun hm => h (List.mem_cons_of_mem _ hm))

/-- Whatever the running state, a listing with no decimal point anywhere
yields no candidate at all. -/
theorem specsLoop_no_dot : ∀ (lines : List String) (codec : String)
    (curF : Option String) (curR : Option (Nat × Nat)),
    (∀ l ∈ lines, ('.' : Char) ∉ l.toList) →
    specsLoop codec lines curF curR = [] := by
  intro lines
  induction lines with
  | nil => intro codec curF curR _; rfl
  | cons l rest ih =>
    intro codec curF curR h
    have hl : ('.' : Char) ∉ l.toList := h l (by simp)
    have hrest : ∀ x ∈ rest, ('.' : Char) ∉ x.toList :=
      fun x hx => h x (by simp [hx])
    simp only [specsLoop]
    split
    · exact ih codec _ _ hrest
    · split
      · exact ih codec _ _ hrest
      · split
        · split
          · exact ih codec _ _ hrest
          · split
            · split
              · rename_i fps heq
                rw [fpsSearch_no_dot l.toList hl] at heq
                cases heq
              · exact ih codec _ _ hrest
            · exact ih codec _ _ hrest
        · exact ih codec _ _ hrest

/-- A rate written without a fractional part, under the preferred tag and
with a resolution set. -/
def intFpsLine : String := "      Interval: Discrete (30 fps)"

/-- The same line with a decimal-fraction rate. -/
def fracFpsLine : String := "      Interval: Discrete 0.033s (30.000 fps)"

/-- C10: a FormatCandidate is emitted only from a frame-rate line whose
rate is written with a decimal fraction: with no decimal point in the
listing nothing is ever emitted whatever the state (first conjunct), and
concretely `(30 fps)` yields no candidate even with the preferred tag and
a resolution set, while `(30.000 fps)` does (remaining conjuncts). -/
theorem claim_C10_decimal_rate :
    (∀ (codec : String) (lines : List String) (curF : Option String)
      (curR : Option (Nat × Nat)),
      (∀ l ∈ lines, ('.' : Char) ∉ l.toList) →
      specsLoop codec lines curF curR = []) ∧
    specsLoop "MJPG" [intFpsLine] (some "MJPG") (some (640, 480)) = [] ∧
    specsLoop "MJPG" [fracFpsLine] (some "MJPG") (some (640, 480)) =
      [{ format := "MJPG", width := 640, height := 480, fps := "30.000" }] :=
  ⟨fun codec lines curF curR h => specsLoop_no_dot lines codec curF curR h,
   by decide, by decide⟩

theorem claim_C10_decimal_rate_witness :
    specsLoop "MJPG" ["(30 fps)"] (some "MJPG") (some (1, 1)) = [] :=
  claim_C10_decimal_rate.1 "MJPG" ["(30 fps)"] (some "MJPG") (some (1, 1))
    (by decide)

/-! ### Claim C1: probe-failure isolation -/

/-- The configuration used to classify the two devices of the C1 run. -/
def c1Config : List (String × List String) :=
  [("termal", ["thermal"]), ("cam", ["webcam"])]

/-- Enumeration text with one thermal camera and one webcam. -/
def c1Lines : List String :=
  ["ThermalCam One:", "\t/dev/video0", "Webcam Two:", "\t/dev/video2"]

/-- A healthy probe output for the thermal camera (YUYV only). -/
def yuyvListing : List String :=
  ["[0]: 'YUYV' (YUYV 4:2:2)", "   Size: Discrete 640x480",
   "      Interval: Discrete 0.033s (30.000 fps)"]

/-- The thermal camera's probe succeeds; the webcam's probe invocation
fails. -/
def c1Probe : String → Option (List String) :=
  fun p => if p == "/dev/video0" then some yuyvListing else none

/-- C1: a format-probe failure does yield an empty candidate sequence
inside `_get_camera_specs` (first two conjuncts: failed invocation, and a
listing in which the preferred tag never appears); but the pipeline then
evaluates `all_specs[0]` unguarded, so the whole construction aborts with
an `IndexError` instead of isolating the failure to that device: with the
thermal camera probing fine and the webcam's probe failing, discovery
errors and no device is pooled (third conjunct). -/
theorem claim_C1_probe_isolation :
    getCameraSpecs none "MJPG" = [] ∧
    getCameraSpecs (some yuyvListing) "MJPG" = [] ∧
    discoverCameras (some c1Lines) c1Config c1Probe =
      .error .indexError :=
  ⟨rfl, by decide, rfl⟩

/-! ### Claim C7: devices without a codec preference -/

/-- A classified RealSense device (its type has no codec preference). -/
def realsenseDev : DeviceRecord :=
  { name := "Intel RealSense D435", type := some "realsense",
    paths := ["/dev/video6"], camId := none, camParam := none }

/-- Enumeration text whose single device matches no configured type. -/
def mysteryLines : List String := ["Mystery Device:", "\t/dev/video5"]

/-- A configuration under which `"Mystery Device"` matches nothing. -/
def c7Config : List (String × List String) := [("cam", ["webcam"])]

/-- C7: a device of type `"realsense"` — the one pooled label without a
codec-preference entry — passes the best-parameter step unchanged and is
pooled without a selected format (first three conjuncts); but a device
matching no type at all makes the pipeline abort with a `KeyError`
(`codec_preferences[None]`, because `_find_type` returned `None` while
the skip-guard compares with `""`), for every probe, instead of
completing and pooling it (last conjunct). -/
theorem claim_C7_no_codec_preference :
    (∀ probe, getBestCamParamDev codecPreferences probe realsenseDev =
      .ok realsenseDev) ∧
    realsenseDev.camParam = none ∧
    groupCamerasByType [realsenseDev] =
      .ok [("termal", []), ("cam", []), ("realsense", [realsenseDev])] ∧
    (∀ probe, discoverCameras (some mysteryLines) c7Config probe =
      .error .keyError) :=
  ⟨fun _ => rfl, rfl, rfl, fun _ => rfl⟩

/-! ### Claim C8: the terminal no-devices state -/

/-- The researcher state after a listing that yielded nothing. -/
def noCamResearcher : Researcher := { noCamFound := true, stks := none }

/-- C8: if the device listing yields no records — the lister invocation
failed (`none`) or the text parsed to zero device blocks — construction
captures the terminal no-devices state for *every* config and *every*
probe (so the format prober is never consulted: the result does not
depend on `probe`), and afterwards every claim, for every type label,
immediately returns the absent signal with the state untouched. -/
theorem claim_C8_no_devices :
    (∀ (config : List (String × List String))
      (probe : String → Option (List String)),
      discoverCameras none config probe = .ok noCamResearcher) ∧
    (∀ (config : List (String × List String))
      (probe : String → Option (List String)) (lines : List String),
      parseDetailedInfo lines = some [] →
      discoverCameras (some lines) config probe = .ok noCamResearcher) ∧
    (∀ t, getCameraE noCamResearcher t = .ok (none, noCamResearcher)) := by
  refine ⟨fun config probe => rfl, ?_, fun t => rfl⟩
  intro config probe lines h
  simp [discoverCameras, getDetailedInfo, h, noCamResearcher]

theorem claim_C8_no_devices_witness :
    discoverCameras (some [""]) [] (fun _ => none) = .ok noCamResearcher :=
  claim_C8_no_devices.2.1 [] (fun _ => none) [""] rfl

end CameraScout
